import Mathlib

/-!
Verification of the live audio capture-and-streaming subsystem and the
reminder alarm poller of the Assistme accessibility app.

The definitions below are shallow embeddings of the relevant source code:
the PCM sample conversion loops inside the two onaudioprocess callbacks
(src/features/SpeechToText.tsx and the SoundAlerts component in
src/features/TextToSpeech.tsx), the transcript append rule of the
captioning onmessage handler, the per-feature session supervisor
(startListening / cleanup wiring), the sound-alert list handling, and the
medication reminder poller of src/App.tsx.
-/

namespace Assistme

/-! ## PCM frame encoding

The samples delivered by the audio graph are floating-point numbers; they
are modelled as rationals.  Storing a number into a JS Int16Array applies
ToInt16: truncation toward zero followed by reduction modulo 2^16 into the
signed 16-bit range.
-/

/-- Truncation toward zero of a rational, as performed by the JS ToInt16
conversion before the modulo step. -/
def truncQ (q : ℚ) : ℤ :=
  Int.tdiv q.num (q.den : ℤ)

/-- Reduction of an integer into the signed 16-bit range, the modulo step of
the JS ToInt16 conversion (two's-complement wraparound). -/
def toInt16 (n : ℤ) : ℤ :=
  let m := Int.emod n 65536
  if m < 32768 then m else m - 65536

/-- Little-endian byte pair of the 16-bit two's-complement representation of
an integer, as produced by viewing an Int16Array buffer through a
Uint8Array. -/
def toBytes16 (n : ℤ) : List ℕ :=
  let u := (Int.emod n 65536).toNat
  [u % 256, u / 256]

/-- Signed 16-bit value encoded by a little-endian byte pair. -/
def decodePair (lo hi : ℕ) : ℤ :=
  toInt16 ((lo : ℤ) + 256 * (hi : ℤ))

/-- Decode a PCM byte sequence into its signed 16-bit samples
(little-endian pairs). -/
def decodeFrame : List ℕ → List ℤ
  | lo :: hi :: rest => decodePair lo hi :: decodeFrame rest
  | _ => []

/-- Sample conversion of the onaudioprocess callback in
src/features/SpeechToText.tsx (lines 80-84):
int16[i] = inputData[i] * 32768 — no clamping, scale factor 32768. -/
def encodeSampleSTT (s : ℚ) : ℤ :=
  toInt16 (truncQ (s * 32768))

/-- Clamp a sample to [-1, 1]: Math.max(-1, Math.min(1, x)). -/
def clampQ (s : ℚ) : ℚ :=
  max (-1) (min 1 s)

/-- Sample conversion of the onaudioprocess callback of the SoundAlerts
component in src/features/TextToSpeech.tsx (lines 322-325):
int16[i] = Math.max(-1, Math.min(1, inputData[i])) * 32767. -/
def encodeSampleSA (s : ℚ) : ℤ :=
  toInt16 (truncQ (clampQ s * 32767))

/-- PCM byte output of the SpeechToText onaudioprocess callback for one
AudioFrame (unclamped variant). -/
def onaudioprocessSTT (frame : List ℚ) : List ℕ :=
  frame.flatMap (fun s => toBytes16 (truncQ (s * 32768)))

/-- PCM byte output of the SoundAlerts onaudioprocess callback for one
AudioFrame (clamped variant, src/features/TextToSpeech.tsx lines 319-329). -/
def onaudioprocessSA (frame : List ℚ) : List ℕ :=
  frame.flatMap (fun s => toBytes16 (truncQ (clampQ s * 32767)))

/-- Claim C1: the claim states that every PCM frame encoder clamps each
sample to [-1, 1] before scaling by 32767, so that no out-of-range sample
produces a byte pair decoding outside the clamped 16-bit signed
equivalent.  The SpeechToText variant skips the clamp and scales by 32768:
the sample 1.5 wraps to -16384 and even the in-range sample 1.0 wraps to
-32768, while the clamped SoundAlerts variant yields the claimed clamped
values (32767 for 1.5, -32767 for -2.0).  This evaluates the code at the
failing inputs. -/
theorem c1_unclamped_pcm_wraps :
    decodeFrame (onaudioprocessSTT [(3 : ℚ)/2]) = [(-16384 : ℤ)]
    ∧ decodeFrame (onaudioprocessSTT [(1 : ℚ)]) = [(-32768 : ℤ)]
    ∧ decodeFrame (onaudioprocessSTT [(-2 : ℚ)]) = [(0 : ℤ)]
    ∧ decodeFrame (onaudioprocessSA [(3 : ℚ)/2]) = [(32767 : ℤ)]
    ∧ decodeFrame (onaudioprocessSA [(-2 : ℚ)]) = [(-32767 : ℤ)]
    ∧ ((-16384 : ℤ) ≠ 32767 ∧ (0 : ℤ) ≠ -32767) := by
  have h1 : truncQ ((3 : ℚ)/2 * 32768) = 49152 := by norm_num [truncQ]
  have h2 : truncQ ((1 : ℚ) * 32768) = 32768 := by norm_num [truncQ]
  have h3 : truncQ ((-2 : ℚ) * 32768) = -65536 := by norm_num [truncQ]
  have h4 : truncQ (clampQ ((3 : ℚ)/2) * 32767) = 32767 := by
    norm_num [truncQ, clampQ]
  have h5 : truncQ (clampQ (-2 : ℚ) * 32767) = -32767 := by
    norm_num [truncQ, clampQ]
  refine ⟨?_, ?_, ?_, ?_, ?_, by decide, by decide⟩ <;>
    simp only [onaudioprocessSTT, onaudioprocessSA, List.flatMap_cons,
      List.flatMap_nil, List.append_nil, h1, h2, h3, h4, h5] <;>
    decide

/-! ## Captioning transcript buffer

The onmessage handler of src/features/SpeechToText.tsx (lines 97-105)
appends each PartialTranscript text to the live buffer:
separator = prev.length > 0 && !prev.endsWith(' ') ? ' ' : ''.
The source computes the separator string and concatenates
prev + separator + newText; the definition below takes the same two
branches with the separator inlined.
-/

/-- JS s.endsWith(c) for a single-character suffix: the last character of
the string equals c. -/
def endsWithChar (s : String) (c : Char) : Bool :=
  s.data.getLast? == some c

/-- JS String.prototype.trim: strip whitespace from both ends. -/
def trimString (s : String) : String :=
  ⟨List.reverse (List.dropWhile Char.isWhitespace
    (List.reverse (List.dropWhile Char.isWhitespace s.data)))⟩

/-- Transcript append rule of the SpeechToText onmessage handler. -/
def appendTranscript (prev newText : String) : String :=
  if decide (0 < prev.length) && !(endsWithChar prev ' ') then
    prev ++ " " ++ newText
  else
    prev ++ newText

/-- Whether a string ends in a whitespace character (the wording of the
claim, which says the separator is omitted when the buffer already ends in
whitespace). -/
def endsWithWhitespace (s : String) : Bool :=
  match s.data.getLast? with
  | some c => c.isWhitespace
  | none => false

/-- Append rule as worded by the claim: a single separating space exactly
when the buffer is non-empty and does not end in whitespace. -/
def claimAppendTranscript (prev newText : String) : String :=
  if decide (0 < prev.length) && !(endsWithWhitespace prev) then
    prev ++ " " ++ newText
  else
    prev ++ newText

/-- Claim C7, counterexample: the source tests only for a trailing space
character (endsWith(' ')), not for arbitrary trailing whitespace.  For a
buffer ending in a tab the code inserts a separating space while the claim
says the separator must be empty. -/
theorem c7_whitespace_counterexample :
    appendTranscript "a\t" "b" = "a\t b"
    ∧ claimAppendTranscript "a\t" "b" = "a\tb"
    ∧ appendTranscript "a\t" "b" ≠ claimAppendTranscript "a\t" "b" := by
  refine ⟨by decide, by decide, by decide⟩

/-- Claim C7, amended: the new buffer is prev concatenated with a separator
and then the event text, where the separator is a single space exactly when
prev is non-empty and does not end in the space character (the code checks
endsWith(' '), not general whitespace). -/
theorem c7_append_separator (prev newText : String) :
    (prev = "" → appendTranscript prev newText = prev ++ newText)
    ∧ (endsWithChar prev ' ' = true →
        appendTranscript prev newText = prev ++ newText)
    ∧ (0 < prev.length → endsWithChar prev ' ' = false →
        appendTranscript prev newText = prev ++ " " ++ newText) := by
  refine ⟨?_, ?_, ?_⟩
  · intro h
    subst h
    simp [appendTranscript]
  · intro h
    simp [appendTranscript, h]
  · intro h1 h2
    simp [appendTranscript, h1, h2]

/-- Witness for c7_append_separator at a concrete non-empty buffer. -/
theorem c7_append_separator_witness :
    (0 < ("hello" : String).length ∧ endsWithChar "hello" ' ' = false)
    ∧ appendTranscript "hello" "world" = "hello" ++ " " ++ "world" :=
  ⟨⟨by decide, by decide⟩,
    (c7_append_separator "hello" "world").2.2 (by decide) (by decide)⟩

/-! ## Session supervisor event machine for captioning state

The flush-on-turn configuration required by the specification is not
present in src/ (SpeechToText only accumulates text until manually
cleared); it is modelled from the spec below.
-/

/-- Captioning state: the live transcript buffer and the bounded history. -/
structure CapState where
  buffer : String
  history : List String
deriving DecidableEq

/-- Decoded server events relevant to the captioning supervisor. -/
inductive CapEvent where
  | ptText (text : String)
  | turnComplete
deriving DecidableEq

/-- Modelled from the spec: the configuration flag selecting flush-on-turn
vs accumulate-until-cleared and the TurnComplete flush are absent from
src/ (SpeechToText.tsx implements only accumulate-until-cleared); the
TurnComplete branch follows spec section 4.5 (flush the trimmed buffer
into a most-recent-first history capped at 5 and clear the live buffer).
The PartialTranscript branch is the append rule embedded from the src
onmessage handler. -/
def capStep (flushOnTurn : Bool) (st : CapState) : CapEvent → CapState
  | .ptText t => { st with buffer := appendTranscript st.buffer t }
  | .turnComplete =>
      if flushOnTurn then
        { buffer := "", history := (trimString st.buffer :: st.history).take 5 }
      else
        st

/-- Claim C8: in flush-on-turn mode the events
[PartialTranscript hello, PartialTranscript world, TurnComplete] from the
empty state leave exactly one history entry (the concatenation of the two
texts with a single separating space) and an empty live buffer; with the
flag off the same events accumulate in the buffer and flush nothing. -/
theorem c8_flush_on_turn :
    List.foldl (capStep true) ⟨"", []⟩
      [CapEvent.ptText "hello", CapEvent.ptText "world", CapEvent.turnComplete]
      = ⟨"", ["hello world"]⟩
    ∧ List.foldl (capStep false) ⟨"", []⟩
      [CapEvent.ptText "hello", CapEvent.ptText "world", CapEvent.turnComplete]
      = ⟨"hello world", []⟩ := by
  refine ⟨by decide, by decide⟩

/-! ## Session supervisor lifecycle

One cooperative event machine per feature instance, embedded from
src/features/SpeechToText.tsx (startListening, cleanup, the connect
callbacks and the await-continuation; the SoundAlerts component in
src/features/TextToSpeech.tsx is wired identically).  Each event is one
callback or continuation of the source running to completion on the single
logical thread.
-/

/-- Resource and UI state of one supervisor instance.  streamLive, ctxLive,
procAttached and refSet mirror streamRef, audioContextRef, processorRef and
sessionRef being non-null (with the stream tracks / context / processor
still active); handleCreated and handleOpen track the session handle
produced by ai.live.connect independently of the ref that may or may not
point at it; frames counts onaudioprocess invocations. -/
structure Sup where
  streamLive : Bool
  ctxLive : Bool
  procAttached : Bool
  listening : Bool
  refSet : Bool
  handleCreated : Bool
  handleOpen : Bool
  connectStarted : Bool
  frames : Nat
deriving DecidableEq

/-- Initial supervisor state: all refs null, not listening. -/
def sup0 : Sup :=
  ⟨false, false, false, false, false, false, false, false, 0⟩

/-- The cleanup routine (src/features/SpeechToText.tsx lines 25-47):
disconnect the processor, stop the stream tracks, close the audio context,
close the session only when sessionRef is set, null all refs, and clear the
listening flag. -/
def cleanupS (s : Sup) : Sup :=
  { s with
    procAttached := false
    streamLive := false
    ctxLive := false
    handleOpen := if s.refSet then false else s.handleOpen
    refSet := false
    listening := false }

/-- Callbacks and continuations of the supervisor, in the order the
platform may deliver them. startGranted is the startListening body up to
initiating ai.live.connect (getUserMedia resolved); startDenied is the
catch path when getUserMedia rejects; onopen and openResolved are the
connect open callback and the await-continuation that stores the handle in
sessionRef; frame is one onaudioprocess invocation. -/
inductive SupEvent where
  | startGranted
  | startDenied
  | onopen
  | openResolved
  | userStop
  | remoteError
  | remoteClose
  | unmount
  | frame
deriving DecidableEq

/-- One callback or continuation of the source running to completion. -/
def supStep (s : Sup) : SupEvent → Sup
  | .startGranted =>
      { s with streamLive := true, ctxLive := true, connectStarted := true }
  | .startDenied => cleanupS s
  | .onopen =>
      if s.connectStarted then
        { s with listening := true, procAttached := true }
      else s
  | .openResolved =>
      if s.connectStarted && !s.handleCreated then
        { s with handleCreated := true, handleOpen := true, refSet := true }
      else s
  | .userStop => cleanupS s
  | .remoteError => cleanupS s
  | .remoteClose => cleanupS s
  | .unmount => cleanupS s
  | .frame =>
      if s.procAttached then { s with frames := s.frames + 1 } else s

/-- Run a sequence of supervisor events. -/
def supRun (s : Sup) (evs : List SupEvent) : Sup :=
  List.foldl supStep s evs

/-- Claim C2: the claim states that a handle resolving after stop() is
closed immediately upon resolution.  In the source, cleanup nulls
sessionRef, and the later continuation sessionRef.current = await
sessionPromise stores the freshly resolved handle without closing it: after
start, stop-before-resolution, then resolution, the handle is open and held
in sessionRef while the supervisor is stopped.  This evaluates the code on
that trace. -/
theorem c2_stop_before_open_leaves_handle_open :
    (supRun sup0
      [SupEvent.startGranted, SupEvent.userStop, SupEvent.openResolved]).handleOpen
        = true
    ∧ (supRun sup0
      [SupEvent.startGranted, SupEvent.userStop, SupEvent.openResolved]).refSet
        = true
    ∧ (supRun sup0
      [SupEvent.startGranted, SupEvent.userStop, SupEvent.openResolved]).listening
        = false
    ∧ (supRun sup0
      [SupEvent.startGranted, SupEvent.userStop, SupEvent.openResolved]).streamLive
        = false := by
  refine ⟨by decide, by decide, by decide, by decide⟩

/-- Any single event other than a granted start leaves the pristine initial
state unchanged. -/
theorem supStep_init_fixed (e : SupEvent) (h : e ≠ SupEvent.startGranted) :
    supStep sup0 e = sup0 := by
  cases e <;> first | decide | exact absurd rfl h

/-- Runs that never contain a granted start leave the initial state
unchanged. -/
theorem supRun_init_fixed (evs : List SupEvent)
    (h : ∀ e ∈ evs, e ≠ SupEvent.startGranted) :
    supRun sup0 evs = sup0 := by
  induction evs with
  | nil => rfl
  | cons e t ih =>
      have he : e ≠ SupEvent.startGranted := h e (List.mem_cons_self e t)
      have ht : ∀ x ∈ t, x ≠ SupEvent.startGranted :=
        fun x hx => h x (List.mem_cons_of_mem e hx)
      show supRun (supStep sup0 e) t = sup0
      rw [supStep_init_fixed e he]
      exact ih ht

/-- Claim C9: if start is invoked and microphone permission is denied, the
startListening body aborts at its first await and the catch runs cleanup
with nothing acquired: no audio-processing graph is ever attached, no frame
callback ever fires, and the supervisor stays in the terminal non-active
initial state through any continuation of the run that does not start
again. -/
theorem c9_permission_denied_terminal (evs : List SupEvent)
    (h : ∀ e ∈ evs, e ≠ SupEvent.startGranted) :
    (supRun sup0 (SupEvent.startDenied :: evs)).frames = 0
    ∧ (supRun sup0 (SupEvent.startDenied :: evs)).procAttached = false
    ∧ (supRun sup0 (SupEvent.startDenied :: evs)).listening = false
    ∧ (supRun sup0 (SupEvent.startDenied :: evs)).streamLive = false
    ∧ (supRun sup0 (SupEvent.startDenied :: evs)).ctxLive = false
    ∧ (supRun sup0 (SupEvent.startDenied :: evs)).handleOpen = false
    ∧ (supRun sup0 (SupEvent.startDenied :: evs)).refSet = false := by
  have hrun : supRun sup0 (SupEvent.startDenied :: evs) = sup0 := by
    show supRun (supStep sup0 SupEvent.startDenied) evs = sup0
    rw [supStep_init_fixed SupEvent.startDenied (by decide)]
    exact supRun_init_fixed evs h
  rw [hrun]
  refine ⟨rfl, rfl, rfl, rfl, rfl, rfl, rfl⟩

/-- Witness for c9_permission_denied_terminal on a concrete continuation of
the run. -/
theorem c9_permission_denied_terminal_witness :
    (∀ e ∈ [SupEvent.onopen, SupEvent.frame, SupEvent.userStop],
        e ≠ SupEvent.startGranted)
    ∧ (supRun sup0 (SupEvent.startDenied ::
        [SupEvent.onopen, SupEvent.frame, SupEvent.userStop])).frames = 0 :=
  ⟨by decide,
    (c9_permission_denied_terminal
      [SupEvent.onopen, SupEvent.frame, SupEvent.userStop] (by decide)).1⟩

/-! ## Sends after close

The outbound path in the onaudioprocess callbacks is a promise chain; the
chunk is delivered through the transport client's sendRealtimeInput.  The
transport client is external to the repository; per the spec's error
taxonomy (section 7, TransientSendFailure) a send on a closed session
fails.
-/

/-- How a post-frame send continuation terminates. -/
inductive SendOutcome where
  | delivered
  | droppedLogged
  | uncaughtRejection
deriving DecidableEq

/-- Modelled from the spec: the transport client's sendRealtimeInput is not
part of the repository; spec section 7 classifies a send() after close as a
TransientSendFailure, i.e. the call fails on a closed session. -/
def sendRealtimeInput (closed : Bool) : Except String Unit :=
  if closed then Except.error "send after close" else Except.ok ()

/-- Send chain of src/features/SpeechToText.tsx lines 90-92:
sessionPromise.then(s => s.sendRealtimeInput(...)) with no rejection
handler, so a failing send becomes an unhandled promise rejection. -/
def sttSendChain (closed : Bool) : SendOutcome :=
  match sendRealtimeInput closed with
  | Except.ok _ => SendOutcome.delivered
  | Except.error _ => SendOutcome.uncaughtRejection

/-- Send chain of the SoundAlerts component,
src/features/TextToSpeech.tsx lines 331-335: the same send wrapped in
.catch(err => console.error(...)), so a failing send is logged and
dropped. -/
def saSendChain (closed : Bool) : SendOutcome :=
  match sendRealtimeInput closed with
  | Except.ok _ => SendOutcome.delivered
  | Except.error _ => SendOutcome.droppedLogged

/-- Claim C3: the claim states that every encoded-chunk send issued after
close() is logged and dropped and never propagates as an uncaught failure.
The SoundAlerts chain does log and drop, but the SpeechToText chain has no
rejection handler: a post-close send surfaces as an uncaught promise
rejection and nothing is logged.  This evaluates both chains on a
post-close send. -/
theorem c3_post_close_send_unhandled :
    sttSendChain true = SendOutcome.uncaughtRejection
    ∧ saSendChain true = SendOutcome.droppedLogged
    ∧ sttSendChain true ≠ SendOutcome.droppedLogged := by
  refine ⟨rfl, rfl, by decide⟩

/-! ## Sound alerts

Embedded from the SoundAlerts onmessage handler in
src/features/TextToSpeech.tsx (lines 340-358): each ModelText part whose
text contains a bracket becomes an alert with a fresh id from
alertIdCounter, pushed on the front of the live list (sliced to 3) and the
history (sliced to 10), with a 6-second id-keyed removal timer.  Timer
callbacks are modelled as explicit events so a trace can interleave later
arrivals with scheduled removals arbitrarily.
-/

/-- Sound-alert component state: the id counter, the live alert list of
(id, text) pairs, and the history list. -/
structure AState where
  counter : Nat
  live : List (Nat × String)
  history : List String
deriving DecidableEq

/-- Initial sound-alert state. -/
def aInit : AState :=
  ⟨0, [], []⟩

/-- Events of the sound-alert component: a detection inserting one alert,
or the setTimeout callback scheduled 6000 ms after the insertion of the
alert with the given id. -/
inductive AEvent where
  | insert (text : String)
  | timerFire (id : Nat)
deriving DecidableEq

/-- One event of the SoundAlerts onmessage/timer wiring running to
completion: an insertion trims the text, takes a fresh id, pushes the alert
on the front of the live list sliced to 3 and of the history sliced to 10;
a timer callback filters its id out of the live list. -/
def astep (st : AState) : AEvent → AState
  | .insert text =>
      let alert := trimString text
      let newId := st.counter
      { counter := newId + 1
        live := ((newId, alert) :: st.live).take 3
        history := (alert :: st.history).take 10 }
  | .timerFire i =>
      { st with live := st.live.filter (fun a => a.1 != i) }

/-- Ids of the alerts currently displayed. -/
def liveIds (st : AState) : List Nat :=
  st.live.map Prod.fst

/-- The SoundAlerts onmessage handler over the text parts of one server
message (a missing text field is skipped; a part is a detection exactly
when its text contains an opening bracket). -/
def saOnMessage (st : AState) (parts : List (Option String)) : AState :=
  parts.foldl
    (fun s p =>
      match p with
      | none => s
      | some t => if t.data.contains '[' then astep s (AEvent.insert t) else s)
    st

/-- Claim C5: every detection inserts the new alert at the front of both
lists, the live list keeps at most 3 and the history at most 10 entries
after every insertion, and four arrivals within one second (no expiry timer
due) leave exactly the three most recent alerts live and all four in
history; a message part without a bracket inserts nothing. -/
theorem c5_alert_caps :
    (∀ (st : AState) (t : String),
      (astep st (AEvent.insert t)).live.head? = some (st.counter, trimString t)
      ∧ (astep st (AEvent.insert t)).history.head? = some (trimString t)
      ∧ (astep st (AEvent.insert t)).live.length ≤ 3
      ∧ (astep st (AEvent.insert t)).history.length ≤ 10)
    ∧ (saOnMessage aInit
        [some "[ALARM]", some "[DOORBELL]", some "[SIREN]", some "[BARK]"]).live
        = [(3, "[BARK]"), (2, "[SIREN]"), (1, "[DOORBELL]")]
    ∧ (saOnMessage aInit
        [some "[ALARM]", some "[DOORBELL]", some "[SIREN]", some "[BARK]"]).history
        = ["[BARK]", "[SIREN]", "[DOORBELL]", "[ALARM]"]
    ∧ saOnMessage aInit [some "quiet room", none] = aInit := by
  refine ⟨fun st t => ⟨?_, ?_, ?_, ?_⟩, by decide, by decide, by decide⟩
  · simp [astep]
  · simp [astep]
  · show (((st.counter, trimString t) :: st.live).take 3).length ≤ 3
    rw [List.length_take]
    exact Nat.min_le_left _ _
  · show ((trimString t :: st.history).take 10).length ≤ 10
    rw [List.length_take]
    exact Nat.min_le_left _ _

/-- Counter never decreases across an event. -/
theorem astep_counter_le (st : AState) (ev : AEvent) :
    st.counter ≤ (astep st ev).counter := by
  cases ev with
  | insert t => simp [astep]
  | timerFire i => simp [astep]

/-- Counter never decreases across a run. -/
theorem afold_counter_le (evs : List AEvent) :
    ∀ st : AState, st.counter ≤ (List.foldl astep st evs).counter := by
  induction evs with
  | nil => intro st; exact Nat.le_refl _
  | cons e t ih =>
      intro st
      exact Nat.le_trans (astep_counter_le st e) (ih (astep st e))

/-- An id present after an insertion is the fresh id or was already live. -/
theorem liveIds_insert_cases (st : AState) (t : String) :
    ∀ i ∈ liveIds (astep st (AEvent.insert t)),
      i = st.counter ∨ i ∈ liveIds st := by
  intro i hi
  simp only [liveIds, astep, List.mem_map] at hi
  obtain ⟨p, hp, rfl⟩ := hi
  have hp2 : p ∈ (st.counter, trimString t) :: st.live :=
    List.take_subset 3 _ hp
  rcases List.mem_cons.mp hp2 with h | h
  · left; rw [h]
  · right; exact List.mem_map_of_mem Prod.fst h

/-- An id live after a timer callback was live before it. -/
theorem liveIds_timer_subset (st : AState) (j : Nat) :
    ∀ i ∈ liveIds (astep st (AEvent.timerFire j)), i ∈ liveIds st := by
  intro i hi
  simp only [liveIds, astep, List.mem_map] at hi
  obtain ⟨p, hp, rfl⟩ := hi
  exact List.mem_map_of_mem Prod.fst (List.mem_of_mem_filter hp)

/-- A dead id strictly below the counter stays dead and below the counter
across any single event. -/
theorem dead_id_step (st : AState) (ev : AEvent) (i : Nat)
    (hlt : i < st.counter) (hdead : i ∉ liveIds st) :
    i ∉ liveIds (astep st ev) ∧ i < (astep st ev).counter := by
  constructor
  · cases ev with
    | insert t =>
        intro hmem
        rcases liveIds_insert_cases st t i hmem with h | h
        · exact Nat.lt_irrefl _ (h ▸ hlt)
        · exact hdead h
    | timerFire j =>
        intro hmem
        exact hdead (liveIds_timer_subset st j i hmem)
  · exact Nat.lt_of_lt_of_le hlt (astep_counter_le st ev)

/-- A dead id strictly below the counter stays dead across any run. -/
theorem dead_id_run (evs : List AEvent) :
    ∀ (st : AState) (i : Nat), i < st.counter → i ∉ liveIds st →
      i ∉ liveIds (List.foldl astep st evs) := by
  induction evs with
  | nil => intro st i _ hdead; exact hdead
  | cons e t ih =>
      intro st i hlt hdead
      obtain ⟨hdead1, hlt1⟩ := dead_id_step st e i hlt hdead
      exact ih (astep st e) i hlt1 hdead1

/-- The timer callback for an id removes every live entry with that id. -/
theorem timer_removes (st : AState) (j : Nat) :
    j ∉ liveIds (astep st (AEvent.timerFire j)) := by
  intro hmem
  simp only [liveIds, astep, List.mem_map] at hmem
  obtain ⟨p, hp, rfl⟩ := hmem
  have := List.of_mem_filter hp
  simp at this

/-- Claim C6: an alert inserted at time T is gone from the live list once
its own 6-second timer callback has run — by T + 6.1 s — regardless of the
events before or after that callback (later arrivals take strictly larger
ids, so nothing re-inserts the expired id); and a timer callback removes
exactly the entries carrying its id, no other entry. -/
theorem c6_alert_expiry (st : AState) (text : String)
    (evs1 evs2 : List AEvent) :
    st.counter ∉ liveIds (List.foldl astep (astep st (AEvent.insert text))
      (evs1 ++ AEvent.timerFire st.counter :: evs2))
    ∧ ∀ (s : AState) (j : Nat),
        (astep s (AEvent.timerFire j)).live
          = s.live.filter (fun a => a.1 != j) := by
  constructor
  · rw [List.foldl_append, List.foldl_cons]
    set mid := List.foldl astep (astep st (AEvent.insert text)) evs1 with hmid
    have hlt : st.counter < mid.counter := by
      have h1 : st.counter < (astep st (AEvent.insert text)).counter := by
        simp [astep]
      exact Nat.lt_of_lt_of_le h1
        (afold_counter_le evs1 (astep st (AEvent.insert text)))
    have hdead : st.counter ∉ liveIds (astep mid (AEvent.timerFire st.counter)) :=
      timer_removes mid st.counter
    have hlt2 : st.counter < (astep mid (AEvent.timerFire st.counter)).counter :=
      Nat.lt_of_lt_of_le hlt (astep_counter_le mid _)
    exact dead_id_run evs2 _ st.counter hlt2 hdead
  · intro s j
    simp [astep]

/-! ## Reminder alarm poller

Embedded from the monitorInterval effect of src/App.tsx (lines 123-146):
each tick computes the current HH:MM, reads the stored medication list,
takes the first medication whose time equals the current minute
(meds.find), and fires at most once per trigger id
(dueMed.id + "-" + currentHHmm) recorded in the never-pruned
triggeredMedsRef set.
-/

/-- Medication record (src/types.ts). -/
structure Medication where
  id : String
  name : String
  patientName : String
  dosage : String
  time : String
  notes : Option String
deriving DecidableEq

/-- One poll tick of the monitorInterval callback: find the first due
medication, and fire it unless its trigger id is already in the seen set.
Returns the fired (medication, minute) if any, and the updated seen set. -/
def tick (meds : List Medication) (hhmm : String) (seen : List String) :
    Option (Medication × String) × List String :=
  match meds.find? (fun m => m.time == hhmm) with
  | none => (none, seen)
  | some m =>
      let tid := m.id ++ "-" ++ hhmm
      if seen.contains tid then (none, seen)
      else (some (m, hhmm), tid :: seen)

/-- Run the poller over a sequence of observed minutes, collecting the
fired alarms in order. -/
def runPoller (meds : List Medication) :
    List String → List String → List (Medication × String) × List String
  | [], seen => ([], seen)
  | h :: t, seen =>
      match tick meds h seen with
      | (none, seen1) => runPoller meds t seen1
      | (some p, seen1) =>
          let r := runPoller meds t seen1
          (p :: r.1, r.2)

/-- Trigger id of a fired alarm, as recorded in the seen set. -/
def fireKey (p : Medication × String) : String :=
  p.1.id ++ "-" ++ p.2

/-- A minute string already seen stays seen across a tick. -/
theorem tick_seen_mono (meds : List Medication) (hhmm key : String)
    (seen : List String) (h : key ∈ seen) :
    key ∈ (tick meds hhmm seen).2 := by
  unfold tick
  cases meds.find? (fun m => m.time == hhmm) with
  | none => exact h
  | some m =>
      by_cases hc : seen.contains (m.id ++ "-" ++ hhmm)
      · simp only [hc, if_true]
        exact h
      · simp only [hc, if_false]
        exact List.mem_cons_of_mem _ h

/-- When a tick fires, the fired alarm is the first due medication, its
trigger id was not yet seen, and it is seen afterwards. -/
theorem tick_fire_spec (meds : List Medication) (hhmm : String)
    (seen : List String) (p : Medication × String)
    (h : (tick meds hhmm seen).1 = some p) :
    meds.find? (fun m => m.time == hhmm) = some p.1
    ∧ p.2 = hhmm
    ∧ fireKey p ∉ seen
    ∧ fireKey p ∈ (tick meds hhmm seen).2 := by
  obtain ⟨p1, p2⟩ := p
  cases hf : meds.find? (fun m => m.time == hhmm) with
  | none =>
      exfalso
      simp [tick, hf] at h
  | some m =>
      by_cases hc : (m.id ++ "-" ++ hhmm) ∈ seen
      · exfalso
        simp [tick, hf, hc] at h
      · have hp : m = p1 ∧ hhmm = p2 := by
          simpa [tick, hf, hc] using h
        obtain ⟨hp1, hp2⟩ := hp
        subst hp1
        subst hp2
        refine ⟨by simp [hf], rfl, ?_, ?_⟩
        · intro hmem
          exact hc hmem
        · simp [tick, hf, hc, fireKey]

/-- Once a trigger id is in the seen set, no later tick fires it again. -/
theorem runPoller_seen_no_fire (meds : List Medication) (key : String) :
    ∀ (ticks : List String) (seen : List String), key ∈ seen →
      ((runPoller meds ticks seen).1.filter
        (fun p => fireKey p == key)).length = 0 := by
  intro ticks
  induction ticks with
  | nil => intro seen _; rfl
  | cons h t ih =>
      intro seen hseen
      unfold runPoller
      rcases htick : tick meds h seen with ⟨fired, seen1⟩
      have hseen1 : key ∈ seen1 := by
        have := tick_seen_mono meds h key seen hseen
        rw [htick] at this
        exact this
      cases fired with
      | none => exact ih seen1 hseen1
      | some p =>
          have hspec := tick_fire_spec meds h seen p (by rw [htick])
          have hne : fireKey p ≠ key := by
            intro hk
            exact hspec.2.2.1 (hk ▸ hseen)
          simp only [List.filter_cons]
          have : (fireKey p == key) = false := by
            exact beq_false_of_ne hne
          rw [this]
          exact ih seen1 hseen1

/-- Claim C4, counterexample: the claim states that a medication fires
again on a later day when its minute recurs.  With one medication at
08:00 and the poller observing 08:00 twice on day one, then 09:00, then
08:00 again on a later day, the run fires exactly once: the seen set is
keyed by id plus minute string and never pruned, so the later-day
recurrence of the same minute is suppressed. -/
theorem c4_no_refire_counterexample :
    (runPoller
      [⟨"m1", "Aspirin", "Bob", "1 pill", "08:00", none⟩]
      ["08:00", "08:00", "09:00", "08:00"] []).1
    = [(⟨"m1", "Aspirin", "Bob", "1 pill", "08:00", none⟩, "08:00")] := by
  decide

/-- Claim C4, amended: a medication with a fixed minute string fires at
most once while consecutive ticks observe that minute, and at most once per
(id, minute) over the poller's whole lifetime: because the seen set is
keyed by medication id plus minute string and is never pruned, the minute
recurring on a later day within the same session does not fire again (a
re-fire requires the seen set to be reset by an app restart). -/
theorem c4_at_most_once_per_key (meds : List Medication)
    (ticks : List String) (key : String) :
    ((runPoller meds ticks []).1.filter
      (fun p => fireKey p == key)).length ≤ 1 := by
  suffices h : ∀ seen : List String,
      ((runPoller meds ticks seen).1.filter
        (fun p => fireKey p == key)).length ≤ 1 from h []
  induction ticks with
  | nil => intro seen; exact Nat.zero_le 1
  | cons h t ih =>
      intro seen
      unfold runPoller
      rcases htick : tick meds h seen with ⟨fired, seen1⟩
      cases fired with
      | none => exact ih seen1
      | some p =>
          have hspec := tick_fire_spec meds h seen p (by rw [htick])
          have hkeymem : fireKey p ∈ seen1 := by
            have := hspec.2.2.2
            rw [htick] at this
            exact this
          simp only [List.filter_cons]
          by_cases hk : (fireKey p == key) = true
          · have hkey : fireKey p = key := eq_of_beq hk
            have hzero := runPoller_seen_no_fire meds key t seen1
              (hkey ▸ hkeymem)
            simp [hk, hzero]
          · rw [Bool.of_not_eq_true hk]
            exact ih seen1

/-- Claim C10: on every poll tick at most one medication is selected, and
when one is selected it is the first medication in stored list order whose
time equals the current minute; consequently over any run of consecutive
ticks observing one fixed minute, every fired alarm is that first match, so
a later medication sharing the same time never fires during that minute. -/
theorem c10_first_match_only (meds : List Medication) (hhmm : String)
    (seen : List String) (n : Nat) :
    ((tick meds hhmm seen).1 = none
      ∨ (tick meds hhmm seen).1
          = (meds.find? (fun m => m.time == hhmm)).map (fun m => (m, hhmm)))
    ∧ ((runPoller meds (List.replicate n hhmm) seen).1.all
        (fun p => decide (meds.find? (fun m => m.time == hhmm) = some p.1)))
        = true := by
  constructor
  · cases hf : meds.find? (fun m => m.time == hhmm) with
    | none => left; simp [tick, hf]
    | some m =>
        by_cases hc : (m.id ++ "-" ++ hhmm) ∈ seen
        · left; simp [tick, hf, hc]
        · right; simp [tick, hf, hc]
  · induction n generalizing seen with
    | zero => rfl
    | succ k ih =>
        rw [List.replicate_succ]
        unfold runPoller
        rcases htick : tick meds hhmm seen with ⟨fired, seen1⟩
        cases fired with
        | none => exact ih seen1
        | some p =>
            have hspec := tick_fire_spec meds hhmm seen p (by rw [htick])
            simp only [List.all_cons, Bool.and_eq_true]
            exact ⟨by simp [hspec.1], ih seen1⟩

end Assistme
